import Mathlib

/-! Verification development for the ClearDeals lead-scoring pipeline.

The repository combines a Next.js frontend (form validation, results table)
with a FastAPI scoring backend.  The frontend sources are embedded directly
(`LeadForm.tsx` validation, `LeadsTable.tsx` score classification); the
backend scoring pipeline (feature builder, model scorer, comment reranker,
pseudonymizer, orchestrator) is not part of the available sources, so those
components are modelled from the specification, as marked in each doc
comment. -/

namespace ClearDeals



/-- The five ordinal intent tiers of the scoring pipeline. -/
inductive IntentTier where
  | veryLow
  | low
  | medium
  | high
  | veryHigh
deriving DecidableEq, Repr

/-- Embedded from `src/unnamed/part_000` (LeadsTable) lines 65-71: maps a
numeric score to the CSS badge class of its tier. -/
def getScoreClass (score : Int) : String :=
  if score ≥ 80 then "score-very-high"
  else if score ≥ 60 then "score-high"
  else if score ≥ 40 then "score-medium"
  else if score ≥ 20 then "score-low"
  else "score-very-low"

/-- Embedded from `src/unnamed/part_000` (LeadsTable) lines 73-82: maps an
intent-level label to the CSS badge class, defaulting to medium. -/
def getIntentClass (intent : String) : String :=
  if intent = "Very High" then "score-very-high"
  else if intent = "High" then "score-high"
  else if intent = "Medium" then "score-medium"
  else if intent = "Low" then "score-low"
  else if intent = "Very Low" then "score-very-low"
  else "score-medium"

/-- Modelled from the spec: the backend Intent Classifier (§4.4) is not under
the available sources; pure threshold map with inclusive lower bounds
(≥ 80 Very High, ≥ 60 High, ≥ 40 Medium, ≥ 20 Low, else Very Low). -/
def classifyIntent (score : Int) : IntentTier :=
  if score ≥ 80 then .veryHigh
  else if score ≥ 60 then .high
  else if score ≥ 40 then .medium
  else if score ≥ 20 then .low
  else .veryLow

/-- Display name of an intent tier, as used by the API layer. -/
def intentName : IntentTier → String
  | .veryLow => "Very Low"
  | .low => "Low"
  | .medium => "Medium"
  | .high => "High"
  | .veryHigh => "Very High"

/-- Raw lead submission, embedded from the `LeadData` interface in
`src/frontend/src/utils/api.ts` (integer-parsed fields as `Int`,
float-parsed fields as `Rat`). -/
structure LeadInput where
  phone : String
  email : String
  credit_score : Int
  age_group : String
  family_background : String
  income : Int
  employment_type : String
  property_type : String
  loan_amount : Int
  down_payment : Int
  property_search_frequency : Int
  budget_tool_usage : Int
  listing_saves : Int
  email_clicks : Int
  whatsapp_interactions : Int
  time_to_purchase : Int
  emi_affordability : Rat
  job_stability : Rat
  comments : String
  consent : Bool

/-- Embedded from `LeadForm.tsx` line 66: the phone pattern
`^\+91-[6-9]\d{9}$` as a decidable predicate on the character list. -/
def phoneMatches (s : String) : Bool :=
  match s.data with
  | '+' :: '9' :: '1' :: '-' :: c :: rest =>
      (c == '6' || c == '7' || c == '8' || c == '9') &&
        rest.length == 9 && rest.all Char.isDigit
  | _ => false

/-- Character admissible inside the email pattern classes `[^\s@]`. -/
def emailChar (c : Char) : Bool :=
  !c.isWhitespace && c != '@'

/-- Splits a character list at its first `@`, if any. -/
def splitFirstAt : List Char → Option (List Char × List Char)
  | [] => none
  | c :: rest =>
    if c == '@' then some ([], rest)
    else
      match splitFirstAt rest with
      | none => none
      | some (a, b) => some (c :: a, b)

/-- True when the list contains a `.` that is not its last element. -/
def hasDotNotLast : List Char → Bool
  | [] => false
  | [_] => false
  | c :: rest => c == '.' || hasDotNotLast rest

/-- True when the list splits as `b ++ . :: c2` with `b`, `c2` nonempty. -/
def dotSplitOk : List Char → Bool
  | [] => false
  | _ :: rest => hasDotNotLast rest

/-- Embedded from `LeadForm.tsx` line 72: the email pattern
`^[^\s@]+@[^\s@]+\.[^\s@]+$` as a decidable predicate (the local part is
`@`-free, so the matched `@` is the first one). -/
def emailMatches (s : String) : Bool :=
  match splitFirstAt s.data with
  | none => false
  | some (a, t) => !a.isEmpty && a.all emailChar && t.all emailChar && dotSplitOk t

/-- Embedded from `LeadForm.tsx` lines 57-96 (`validateForm`): the map of
field errors, as an association list in source order.  The required-field
and format checks for phone and email are guarded exactly as in the source,
so no key is produced twice. -/
def validateForm (d : LeadInput) : List (String × String) :=
  (if d.phone == "" then [("phone", "Phone number is required")] else []) ++
  (if d.email == "" then [("email", "Email is required")] else []) ++
  (if !d.consent then [("consent", "Consent is required")] else []) ++
  (if d.phone != "" && !phoneMatches d.phone then
    [("phone", "Phone number must be in format +91-XXXXXXXXXX")] else []) ++
  (if d.email != "" && !emailMatches d.email then
    [("email", "Please enter a valid email address")] else []) ++
  (if d.credit_score < 300 ∨ 850 < d.credit_score then
    [("credit_score", "Credit score must be between 300 and 850")] else []) ++
  (if d.income ≤ 0 then [("income", "Income must be positive")] else []) ++
  (if d.loan_amount ≤ 0 then [("loan_amount", "Loan amount must be positive")] else []) ++
  (if d.down_payment ≤ 0 then [("down_payment", "Down payment must be positive")] else [])

/-- Embedded from `LeadForm.tsx` line 95: the form is valid when no error
was recorded. -/
def isValid (d : LeadInput) : Bool :=
  (validateForm d).length == 0

/-- Embedded from `LeadForm.tsx` lines 98-110 (`handleSubmit`): the lead is
sent to the scoring API only when validation passes. -/
def submitsForScoring (d : LeadInput) : Bool :=
  isValid d

/-- A reranker rule: trigger phrase, signed delta, category tag (spec §3,
RerankRule). -/
structure RerankRule where
  trigger : List Char
  delta : Int
  category : String
deriving DecidableEq, Repr

/-- Modelled from the spec: the backend reranker rule table is not under the
available sources.  Triggers and deltas follow the README Reranker Logic
table (urgent +10, ready to buy +15, not interested -10, just browsing -5);
the life-event keywords are unspecified there, so they are modelled as three
representative keywords with deltas inside the documented +5..+20 range.
Priority order follows the category listing of spec §4.3. -/
def rerankRules : List RerankRule :=
  [⟨"urgent".data, 10, "urgency"⟩,
   ⟨"ready to buy".data, 15, "purchase-readiness"⟩,
   ⟨"not interested".data, -10, "disengagement"⟩,
   ⟨"just browsing".data, -5, "casual-browsing"⟩,
   ⟨"new job".data, 10, "life-event"⟩,
   ⟨"marriage".data, 15, "life-event"⟩,
   ⟨"new baby".data, 20, "life-event"⟩]

/-- True when `needle` is a leading segment of `hay`. -/
def leadMatch : List Char → List Char → Bool
  | [], _ => true
  | _ :: _, [] => false
  | n :: ns, h :: hs => n == h && leadMatch ns hs

/-- True when `needle` occurs contiguously inside `hay`. -/
def containsSeq (needle : List Char) : List Char → Bool
  | [] => leadMatch needle []
  | h :: hs => leadMatch needle (h :: hs) || containsSeq needle hs

/-- Modelled from the spec (§4.3): comment normalization, trim then
case-fold. -/
def normalizeComment (s : String) : List Char :=
  (((s.data.dropWhile Char.isWhitespace).reverse.dropWhile
    Char.isWhitespace).reverse).map Char.toLower

/-- Modelled from the spec (§4.3): rules are evaluated in fixed priority
order; a rule fires when its trigger occurs in the normalized text and no
earlier rule of the same category has fired (`seen` carries the categories
fired so far). -/
def pickRules (norm : List Char) : List RerankRule → List String → List RerankRule
  | [], _ => []
  | r :: rs, seen =>
    if containsSeq r.trigger norm && !seen.contains r.category then
      r :: pickRules norm rs (r.category :: seen)
    else
      pickRules norm rs seen

/-- Modelled from the spec: clamp a score into [0,100]. -/
def clamp (x : Int) : Int :=
  max 0 (min 100 x)

/-- Sum of the deltas of a list of rules. -/
def sumDeltas (rs : List RerankRule) : Int :=
  (rs.map RerankRule.delta).sum

/-- Human-readable description of an applied adjustment. -/
def describeRule (r : RerankRule) : String × Int :=
  (r.category, r.delta)

/-- Modelled from the spec (§4.3): the comment reranker.  Returns the
clamped adjusted score together with the ordered list of rules that
fired. -/
def rerankComment (initial : Int) (comment : String) : Int × List RerankRule :=
  let fired := pickRules (normalizeComment comment) rerankRules []
  (clamp (initial + sumDeltas fired), fired)

/-- Modelled from the spec (§4.1): division with an explicitly defined zero
denominator, treated as 0. -/
def safeDiv (a b : Rat) : Rat :=
  if b = 0 then 0 else a / b

/-- Categorical encoding table for age groups (form enumeration order). -/
def ageGroupTable : List (String × Int) :=
  [("18-25", 0), ("26-35", 1), ("36-50", 2), ("51+", 3)]

/-- Categorical encoding table for family background. -/
def familyTable : List (String × Int) :=
  [("Single", 0), ("Married", 1)]

/-- Categorical encoding table for employment type. -/
def employmentTable : List (String × Int) :=
  [("Salaried", 0), ("Self-Employed", 1), ("Business Owner", 2)]

/-- Categorical encoding table for property type. -/
def propertyTable : List (String × Int) :=
  [("Apartment", 0), ("Villa", 1), ("Plot", 2)]

/-- Modelled from the spec (§4.1): categorical lookup with an explicit
unknown-category fallback value (-1) rather than a failure. -/
def encodeCat (table : List (String × Int)) (v : String) : Int :=
  (table.lookup v).getD (-1)

/-- Modelled from the spec (§3): the fixed-schema numeric feature vector, a
record whose field order is the versioned feature order. -/
structure FeatureVector where
  credit : Rat
  income : Rat
  loan : Rat
  downPayment : Rat
  loanToIncome : Rat
  downPaymentShare : Rat
  engagement : Rat
  timeToPurchase : Rat
  emi : Rat
  job : Rat
  ageCode : Rat
  familyCode : Rat
  employmentCode : Rat
  propertyCode : Rat

/-- Modelled from the spec (§4.1): the feature vector derived from a
validated lead: raw financial fields, derived ratios (loan-to-income,
down-payment share), the engagement aggregate, affordability fields, and the
encoded categorical fields. -/
def buildFeatures (l : LeadInput) : FeatureVector :=
  { credit := (l.credit_score : Rat)
    income := (l.income : Rat)
    loan := (l.loan_amount : Rat)
    downPayment := (l.down_payment : Rat)
    loanToIncome := safeDiv (l.loan_amount : Rat) (l.income : Rat)
    downPaymentShare := safeDiv (l.down_payment : Rat) (l.loan_amount : Rat)
    engagement := ((l.property_search_frequency + l.budget_tool_usage +
      l.listing_saves + l.email_clicks + l.whatsapp_interactions : Int) : Rat)
    timeToPurchase := (l.time_to_purchase : Rat)
    emi := l.emi_affordability
    job := l.job_stability
    ageCode := (encodeCat ageGroupTable l.age_group : Rat)
    familyCode := (encodeCat familyTable l.family_background : Rat)
    employmentCode := (encodeCat employmentTable l.employment_type : Rat)
    propertyCode := (encodeCat propertyTable l.property_type : Rat) }

/-- Modelled from the spec (§4.2): the trained artifact is not under the
available sources; the scorer is modelled as a deterministic predictor whose
high-intent probability is the fraction of eight feature indicators that
hold, so the derived score is an integer in [0,100] by construction. -/
def modelHits (f : FeatureVector) : Nat :=
  (if 700 ≤ f.credit then 1 else 0) +
  (if 1000000 ≤ f.income then 1 else 0) +
  (if f.loanToIncome ≤ 4 then 1 else 0) +
  (if 1/5 ≤ f.downPaymentShare then 1 else 0) +
  (if 5 ≤ f.engagement then 1 else 0) +
  (if f.timeToPurchase ≤ 6 then 1 else 0) +
  (if 2 ≤ f.emi then 1 else 0) +
  (if 3 ≤ f.job then 1 else 0)

/-- Modelled from the spec (§4.2): probability scaled by 100 and taken to an
integer (truncation chosen as the documented deterministic rounding rule). -/
def initialScore (l : LeadInput) : Int :=
  ((100 * modelHits (buildFeatures l)) / 8 : Nat)

/-- Truncation to a 32-bit word. -/
def w32 (x : Nat) : Nat :=
  x % 4294967296

/-- 32-bit right rotation. -/
def rotr (n x : Nat) : Nat :=
  w32 ((x >>> n) ||| (x <<< (32 - n)))

/-- SHA-256 small sigma 0 (FIPS 180-4). -/
def sig0 (x : Nat) : Nat :=
  rotr 7 x ^^^ rotr 18 x ^^^ (x >>> 3)

/-- SHA-256 small sigma 1. -/
def sig1 (x : Nat) : Nat :=
  rotr 17 x ^^^ rotr 19 x ^^^ (x >>> 10)

/-- SHA-256 big Sigma 0. -/
def bigSig0 (x : Nat) : Nat :=
  rotr 2 x ^^^ rotr 13 x ^^^ rotr 22 x

/-- SHA-256 big Sigma 1. -/
def bigSig1 (x : Nat) : Nat :=
  rotr 6 x ^^^ rotr 11 x ^^^ rotr 25 x

/-- SHA-256 choice function. -/
def chVal (e f g : Nat) : Nat :=
  (e &&& f) ^^^ ((4294967295 ^^^ e) &&& g)

/-- SHA-256 majority function. -/
def majVal (a b c : Nat) : Nat :=
  (a &&& b) ^^^ (a &&& c) ^^^ (b &&& c)

/-- The 64 SHA-256 round constants of FIPS 180-4 section 4.2.2 (the
fractional parts of the cube roots of the first 64 primes), in decimal. -/
def sha256K : List Nat :=
  [1116352408, 1899447441, 3049323471, 3921009573, 961987163, 1508970993,
   2453635748, 2870763221, 3624381080, 310598401, 607225278, 1426881987,
   1925078388, 2162078206, 2614888103, 3248222580, 3835390401, 4022224774,
   264347078, 604807628, 770255983, 1249150122, 1555081692, 1996064986,
   2554220882, 2821834349, 2952996808, 3210313671, 3336571891, 3584528711,
   113926993, 338241895, 666307205, 773529912, 1294757372, 1396182291,
   1695183700, 1986661051, 2177026350, 2456956037, 2730485921, 2820302411,
   3259730800, 3345764771, 3516065817, 3600352804, 4094571909, 275423344,
   430227734, 506948616, 659060556, 883997877, 958139571, 1322822218,
   1537002063, 1747873779, 1955562222, 2024104815, 2227730452, 2361852424,
   2428436474, 2756734187, 3204031479, 3329325298]

/-- The SHA-256 initial hash state of FIPS 180-4 section 5.3.3 (the
fractional parts of the square roots of the first 8 primes), in decimal. -/
def sha256H0 : List Nat :=
  [1779033703, 3144134277, 1013904242, 2773480762,
   1359893119, 2600822924, 528734635, 1541459225]

/-- Extends the 16 message words of a block to the 64-word schedule. -/
def extendW : Nat → List Nat → List Nat
  | 0, ws => ws
  | k + 1, ws =>
    extendW k (ws ++ [w32 (ws.getD (ws.length - 16) 0 +
      sig0 (ws.getD (ws.length - 15) 0) +
      ws.getD (ws.length - 7) 0 + sig1 (ws.getD (ws.length - 2) 0))])

/-- One SHA-256 compression round on the eight-word working state. -/
def sha256Round (st : List Nat) (kw : Nat × Nat) : List Nat :=
  match st with
  | [a, b, c, d, e, f, g, h] =>
    let t1 := w32 (h + bigSig1 e + chVal e f g + kw.1 + kw.2)
    let t2 := w32 (bigSig0 a + majVal a b c)
    [w32 (t1 + t2), a, b, c, w32 (d + t1), e, f, g]
  | other => other

/-- Compresses one 16-word block into the running hash state. -/
def compressBlock (hs ws16 : List Nat) : List Nat :=
  let st := (sha256K.zip (extendW 48 ws16)).foldl sha256Round hs
  (hs.zip st).map (fun p => w32 (p.1 + p.2))

/-- Groups bytes into big-endian 32-bit words. -/
def toWords : List Nat → List Nat
  | b0 :: b1 :: b2 :: b3 :: rest =>
      (((b0 * 256 + b1) * 256 + b2) * 256 + b3) :: toWords rest
  | _ => []

/-- Exactly `k` bytes of `n`, least significant first. -/
def leBytes : Nat → Nat → List Nat
  | 0, _ => []
  | k + 1, n => (n % 256) :: leBytes k (n / 256)

/-- SHA-256 message padding: a 0x80 byte, zeros to 56 mod 64, and the
big-endian 64-bit bit length. -/
def sha256Pad (msg : List Nat) : List Nat :=
  msg ++ [128] ++ List.replicate ((119 - msg.length % 64) % 64) 0 ++
    (leBytes 8 (8 * msg.length)).reverse

/-- Folds the compression over the padded message, 64 bytes per step. -/
def sha256Loop : Nat → List Nat → List Nat → List Nat
  | 0, hs, _ => hs
  | k + 1, hs, bytes =>
    sha256Loop k (compressBlock hs (toWords (bytes.take 64))) (bytes.drop 64)

/-- UTF-8 encoding of one character. -/
def utf8Bytes (c : Char) : List Nat :=
  let n := c.toNat
  if n < 128 then [n]
  else if n < 2048 then [192 + n / 64, 128 + n % 64]
  else if n < 65536 then [224 + n / 4096, 128 + (n / 64) % 64, 128 + n % 64]
  else [240 + n / 262144, 128 + (n / 4096) % 64, 128 + (n / 64) % 64, 128 + n % 64]

/-- UTF-8 bytes of a string, as hashed by the backend. -/
def strBytes (s : String) : List Nat :=
  (s.data.map utf8Bytes).flatten

/-- The 256-bit SHA-256 digest value of a string: the padded UTF-8 message
compressed block by block, the final eight words combined big-endian. -/
def hashValue (s : String) : Nat :=
  let padded := sha256Pad (strBytes s)
  (sha256Loop (padded.length / 64) sha256H0 padded).foldl
    (fun acc h => acc * 4294967296 + h) 0

/-- Lowercase hex digit for a value below 16. -/
def hexChar (n : Nat) : Char :=
  if n < 10 then Char.ofNat (48 + n) else Char.ofNat (87 + n)

/-- Exactly `k` lowercase hex digits of `n`, least significant first. -/
def hexDigits : Nat → Nat → List Char
  | 0, _ => []
  | k + 1, n => hexChar (n % 16) :: hexDigits k (n / 16)

/-- Modelled from the spec (§4.5): the backend pseudonymizer, the SHA-256
hex digest of the identifier (the implementation above is FIPS 180-4
SHA-256, validated against the standard test vectors). -/
def hashDigest (s : String) : String :=
  ⟨(hexDigits 64 (hashValue s)).reverse⟩

/-- An infinite family of pairwise-distinct strings matching the email
pattern, used to exhibit that a fixed-length digest must collide. -/
def emailOf (n : Nat) : String :=
  ⟨List.replicate (n + 1) 'a' ++ "@b.c".data⟩

/-- Typed errors of the scoring pipeline (spec §7). -/
inductive ScoringError where
  | validationError : String → ScoringError
  | modelUnavailable : ScoringError
deriving DecidableEq, Repr

/-- The assembled scoring record (spec §3, ScoreResult). -/
structure ScoreResult where
  initial_score : Int
  reranked_score : Int
  intent_level : IntentTier
  explanation : List (String × Int)
  hashed_email : String
  hashed_phone : String
  timestamp : Nat
deriving DecidableEq, Repr

/-- Process state seen by the orchestrator: whether the model artifact
loaded, and the append-only store of results. -/
structure PipelineState where
  modelLoaded : Bool
  store : List ScoreResult
deriving DecidableEq, Repr

/-- Modelled from the spec (§4.6, §9): the scoring orchestrator.  The
readiness check comes before accepting the request (fail-closed); then
validation, feature building, model scoring, reranking, classification,
pseudonymization, and the append to the store.  On any error the state is
returned unchanged. -/
def scoreLead (st : PipelineState) (now : Nat) (l : LeadInput) :
    Except ScoringError ScoreResult × PipelineState :=
  if st.modelLoaded = false then
    (Except.error ScoringError.modelUnavailable, st)
  else
    match validateForm l with
    | (f, _) :: _ => (Except.error (ScoringError.validationError f), st)
    | [] =>
      let init := initialScore l
      let rr := rerankComment init l.comments
      let res : ScoreResult :=
        { initial_score := init
          reranked_score := rr.1
          intent_level := classifyIntent rr.1
          explanation := rr.2.map describeRule
          hashed_email := hashDigest l.email
          hashed_phone := hashDigest l.phone
          timestamp := now }
      (Except.ok res, { st with store := st.store ++ [res] })

/-- The end-to-end positive scenario lead: form defaults with credit_score
750, income 1,200,000 and the ready-to-buy urgent comment. -/
def positiveLead : LeadInput :=
  { phone := "+91-9876543210"
    email := "john.doe@example.com"
    credit_score := 750
    age_group := "26-35"
    family_background := "Married"
    income := 1200000
    employment_type := "Salaried"
    property_type := "Apartment"
    loan_amount := 3000000
    down_payment := 600000
    property_search_frequency := 2
    budget_tool_usage := 1
    listing_saves := 3
    email_clicks := 1
    whatsapp_interactions := 2
    time_to_purchase := 8
    emi_affordability := 5/2
    job_stability := 4
    comments := "I am ready to buy and it\x27s urgent"
    consent := true }

/-- The end-to-end negative scenario lead: identical to the positive lead
except for the browsing comment. -/
def negativeLead : LeadInput :=
  { positiveLead with comments := "just browsing, not interested" }

/-- C1: the intent classifier is a pure function of the final score; score
≥ 80 maps to Very High, 60 ≤ score < 80 to High, 40 ≤ score < 60 to Medium,
20 ≤ score < 40 to Low, score < 20 to Very Low, each boundary belonging to
the higher tier; the frontend score badge agrees with the tier badge. -/
theorem getScoreClass_thresholds (s : Int) :
    (getScoreClass s = "score-very-high" ↔ 80 ≤ s) ∧
    (getScoreClass s = "score-high" ↔ 60 ≤ s ∧ s < 80) ∧
    (getScoreClass s = "score-medium" ↔ 40 ≤ s ∧ s < 60) ∧
    (getScoreClass s = "score-low" ↔ 20 ≤ s ∧ s < 40) ∧
    (getScoreClass s = "score-very-low" ↔ s < 20) ∧
    getScoreClass s = getIntentClass (intentName (classifyIntent s)) := by
  unfold getScoreClass classifyIntent
  split_ifs with h1 h2 h3 h4 <;>
    refine ⟨?_, ?_, ?_, ?_, ?_, ?_⟩ <;>
    simp [intentName, getIntentClass] <;>
    omega

/-- Any recorded field error makes the form invalid. -/
theorem isValid_false_of_mem {d : LeadInput} {e : String × String}
    (h : e ∈ validateForm d) : isValid d = false := by
  unfold isValid
  cases hval : validateForm d with
  | nil => rw [hval] at h; simp at h
  | cons a t => rfl

/-- A matching phone is nonempty (the pattern needs at least five chars). -/
theorem phoneMatches_ne_empty (s : String) (h : phoneMatches s = true) :
    s ≠ "" := by
  intro hs
  rw [hs] at h
  simp [phoneMatches] at h

/-- C9: every LeadInput violating the declared ranges (credit_score outside
[300,850], income ≤ 0, loan_amount ≤ 0, down_payment ≤ 0, or consent false)
is rejected by the validator with an error naming the offending field, and
the lead is not submitted for scoring. -/
theorem validateForm_rejects_invalid (d : LeadInput) :
    ((d.credit_score < 300 ∨ 850 < d.credit_score) →
      ("credit_score", "Credit score must be between 300 and 850") ∈ validateForm d ∧
        submitsForScoring d = false) ∧
    (d.income ≤ 0 →
      ("income", "Income must be positive") ∈ validateForm d ∧
        submitsForScoring d = false) ∧
    (d.loan_amount ≤ 0 →
      ("loan_amount", "Loan amount must be positive") ∈ validateForm d ∧
        submitsForScoring d = false) ∧
    (d.down_payment ≤ 0 →
      ("down_payment", "Down payment must be positive") ∈ validateForm d ∧
        submitsForScoring d = false) ∧
    (d.consent = false →
      ("consent", "Consent is required") ∈ validateForm d ∧
        submitsForScoring d = false) := by
  refine ⟨fun h => ?_, fun h => ?_, fun h => ?_, fun h => ?_, fun h => ?_⟩ <;>
  · refine have hm : _ ∈ validateForm d := ?_; ⟨hm, isValid_false_of_mem hm⟩
    unfold validateForm
    simp only [List.mem_append]
    simp [h]

/-- C10: the validator accepts a non-empty phone only when it matches
`^\+91-[6-9]\d{9}$`; any other non-empty phone records a phone error and
blocks submission, and a matching phone records no phone error at all. -/
theorem validateForm_phone_format (d : LeadInput) :
    (d.phone ≠ "" → phoneMatches d.phone = false →
      ("phone", "Phone number must be in format +91-XXXXXXXXXX") ∈ validateForm d ∧
        submitsForScoring d = false) ∧
    (phoneMatches d.phone = true → ∀ m : String, ("phone", m) ∉ validateForm d) := by
  constructor
  · intro hne hmf
    refine have hm : _ ∈ validateForm d := ?_; ⟨hm, isValid_false_of_mem hm⟩
    unfold validateForm
    simp only [List.mem_append]
    simp [hne, hmf]
  · intro hmt m hm
    have hne : d.phone ≠ "" := phoneMatches_ne_empty _ hmt
    unfold validateForm at hm
    simp only [List.mem_append] at hm
    rcases hm with ((((((((h | h) | h) | h) | h) | h) | h) | h) | h) <;>
        revert h <;> split <;>
      simp_all

/-- The rules picked are a subsequence of the rule table (fixed priority
order is preserved). -/
theorem pickRules_sublist (norm : List Char) :
    ∀ (rs : List RerankRule) (seen : List String),
      (pickRules norm rs seen).Sublist rs := by
  intro rs
  induction rs with
  | nil => intro seen; simp [pickRules]
  | cons r t ih =>
    intro seen
    unfold pickRules
    split
    · exact List.Sublist.cons₂ r (ih _)
    · exact List.Sublist.cons r (ih _)

/-- Every picked rule has its trigger in the normalized text. -/
theorem pickRules_matches (norm : List Char) :
    ∀ (rs : List RerankRule) (seen : List String) (r : RerankRule),
      r ∈ pickRules norm rs seen → containsSeq r.trigger norm = true := by
  intro rs
  induction rs with
  | nil => intro seen r h; simp [pickRules] at h
  | cons q t ih =>
    intro seen r h
    unfold pickRules at h
    split at h
    · rcases List.mem_cons.mp h with rfl | h
      · rename_i hcond
        exact (Bool.and_eq_true _ _ |>.mp hcond).1
      · exact ih _ _ h
    · exact ih _ _ h

/-- The categories of the picked rules avoid `seen` and are pairwise
distinct. -/
theorem pickRules_categories_nodup (norm : List Char) :
    ∀ (rs : List RerankRule) (seen : List String),
      (∀ c ∈ (pickRules norm rs seen).map RerankRule.category, c ∉ seen) ∧
        ((pickRules norm rs seen).map RerankRule.category).Nodup := by
  intro rs
  induction rs with
  | nil => intro seen; simp [pickRules]
  | cons q t ih =>
    intro seen
    unfold pickRules
    split
    · rename_i hcond
      have hseen : q.category ∉ seen := by
        have := (Bool.and_eq_true _ _ |>.mp hcond).2
        simpa using this
      obtain ⟨havoid, hnodup⟩ := ih (q.category :: seen)
      refine ⟨?_, ?_⟩
      · intro c hc hcs
        simp only [List.map_cons, List.mem_cons] at hc
        rcases hc with rfl | hc
        · exact hseen hcs
        · exact havoid c hc (List.mem_cons_of_mem _ hcs)
      · simp only [List.map_cons, List.nodup_cons]
        refine ⟨fun hmem => ?_, hnodup⟩
        exact havoid _ hmem (List.mem_cons_self _ _)
    · exact ih seen

/-- A list of rules with pairwise-distinct categories keeps at most one
rule per category. -/
theorem filter_category_le_one :
    ∀ (l : List RerankRule), (l.map RerankRule.category).Nodup →
      ∀ c : String, (l.filter (fun r => r.category == c)).length ≤ 1 := by
  intro l
  induction l with
  | nil => intro _ c; simp
  | cons q t ih =>
    intro hnd c
    simp only [List.map_cons, List.nodup_cons] at hnd
    obtain ⟨hq, hnd⟩ := hnd
    by_cases hc : q.category = c
    · have ht : t.filter (fun r => r.category == c) = [] := by
        rw [List.filter_eq_nil_iff]
        intro r hr
        simp only [beq_iff_eq]
        intro hrc
        have : q.category ∈ t.map RerankRule.category := by
          rw [hc, ← hrc]
          exact List.mem_map_of_mem RerankRule.category hr
        exact hq this
      simp [List.filter_cons, hc, ht]
    · have : (q.category == c) = false := by simpa using hc
      simp only [List.filter_cons, this]
      simpa using ih hnd c

/-- The clamp keeps every value inside [0,100] and is exact at the
boundaries. -/
theorem clamp_spec (x : Int) :
    0 ≤ clamp x ∧ clamp x ≤ 100 ∧ (x < 0 → clamp x = 0) ∧
      (100 < x → clamp x = 100) ∧ (0 ≤ x → x ≤ 100 → clamp x = x) := by
  unfold clamp
  omega

/-- C3: the reranker fires at most one rule per category, in fixed priority
order (the fired list is a subsequence of the rule table, every fired rule
matched the normalized comment), and the reranked score is the initial
score plus the sum of fired deltas, clamped to [0,100]; the fired list is
reported in order. -/
theorem rerankComment_spec (initial : Int) (comment : String) :
    (∀ c : String,
      ((rerankComment initial comment).2.filter
        (fun r => r.category == c)).length ≤ 1) ∧
    (rerankComment initial comment).2.Sublist rerankRules ∧
    (∀ r ∈ (rerankComment initial comment).2,
      containsSeq r.trigger (normalizeComment comment) = true) ∧
    (rerankComment initial comment).1 =
      clamp (initial + sumDeltas (rerankComment initial comment).2) := by
  refine ⟨?_, ?_, ?_, rfl⟩
  · exact fun c =>
      filter_category_le_one _ (pickRules_categories_nodup _ rerankRules []).2 c
  · exact pickRules_sublist _ rerankRules []
  · exact fun r hr => pickRules_matches _ rerankRules [] r hr

/-- A comment consisting only of whitespace normalizes to the empty
character list. -/
theorem normalizeComment_eq_nil {comment : String}
    (hws : ∀ c ∈ comment.data, c.isWhitespace = true) :
    normalizeComment comment = [] := by
  unfold normalizeComment
  rw [List.dropWhile_eq_nil_iff.mpr hws]
  simp

/-- C4: the empty (or whitespace-only) comment is an identity for the
reranker: no rule fires and the reranked score equals the initial score,
for any initial score inside the scorer's contracted range [0,100]. -/
theorem rerankComment_empty (initial : Int) (comment : String)
    (hws : ∀ c ∈ comment.data, c.isWhitespace = true)
    (h0 : 0 ≤ initial) (h100 : initial ≤ 100) :
    rerankComment initial comment = (initial, []) := by
  unfold rerankComment
  rw [normalizeComment_eq_nil hws]
  have hpick : pickRules [] rerankRules [] = [] := by decide
  rw [hpick]
  unfold sumDeltas clamp
  simp only [List.map_nil, List.sum_nil, Int.add_zero]
  congr 1
  omega

/-- Witness for C4 at a concrete whitespace-only comment. -/
theorem rerankComment_empty_witness :
    rerankComment 55 "   " = (55, []) :=
  rerankComment_empty 55 "   " (by decide) (by decide) (by decide)

/-- A 0/1 indicator is at most one. -/
theorem ite_le_one (c : Prop) [Decidable c] : (if c then (1 : Nat) else 0) ≤ 1 := by
  split <;> omega

/-- At most eight indicators hold. -/
theorem modelHits_le (f : FeatureVector) : modelHits f ≤ 8 := by
  unfold modelHits
  have h1 := ite_le_one (700 ≤ f.credit)
  have h2 := ite_le_one (1000000 ≤ f.income)
  have h3 := ite_le_one (f.loanToIncome ≤ 4)
  have h4 := ite_le_one ((1 : Rat)/5 ≤ f.downPaymentShare)
  have h5 := ite_le_one ((5 : Rat) ≤ f.engagement)
  have h6 := ite_le_one (f.timeToPurchase ≤ 6)
  have h7 := ite_le_one ((2 : Rat) ≤ f.emi)
  have h8 := ite_le_one ((3 : Rat) ≤ f.job)
  omega

/-- The initial score is an integer in [0,100]. -/
theorem initialScore_bounds (l : LeadInput) :
    0 ≤ initialScore l ∧ initialScore l ≤ 100 := by
  have h := modelHits_le (buildFeatures l)
  unfold initialScore
  omega

/-- C2: for every lead, the initial score and the reranked score are
integers in [0,100]; when the matched rule deltas would push the score below
0 or above 100 the reranked score is exactly 0 or exactly 100. -/
theorem pipeline_scores_in_range (l : LeadInput) :
    (0 ≤ initialScore l ∧ initialScore l ≤ 100) ∧
    (0 ≤ (rerankComment (initialScore l) l.comments).1 ∧
      (rerankComment (initialScore l) l.comments).1 ≤ 100) ∧
    (initialScore l + sumDeltas (rerankComment (initialScore l) l.comments).2 < 0 →
      (rerankComment (initialScore l) l.comments).1 = 0) ∧
    (100 < initialScore l + sumDeltas (rerankComment (initialScore l) l.comments).2 →
      (rerankComment (initialScore l) l.comments).1 = 100) := by
  have hc := clamp_spec
    (initialScore l + sumDeltas (rerankComment (initialScore l) l.comments).2)
  exact ⟨initialScore_bounds l, ⟨hc.1, hc.2.1⟩, hc.2.2.1, hc.2.2.2.1⟩

/-- C8: while the model artifact is not loaded, every scoring request
returns a ModelUnavailableError and the store is unchanged (fail-closed,
nothing persisted). -/
theorem scoreLead_model_unavailable (st : PipelineState) (now : Nat)
    (l : LeadInput) (h : st.modelLoaded = false) :
    (scoreLead st now l).1 = Except.error ScoringError.modelUnavailable ∧
      (scoreLead st now l).2 = st := by
  unfold scoreLead
  simp [h]

/-- Witness for C8 at a concrete unloaded state and lead. -/
theorem scoreLead_model_unavailable_witness :
    (scoreLead ⟨false, []⟩ 0 positiveLead).1 =
        Except.error ScoringError.modelUnavailable ∧
      (scoreLead ⟨false, []⟩ 0 positiveLead).2 = ⟨false, []⟩ :=
  scoreLead_model_unavailable ⟨false, []⟩ 0 positiveLead rfl

/-- The rendered digest has exactly `k` characters. -/
theorem hexDigits_length : ∀ (k n : Nat), (hexDigits k n).length = k := by
  intro k
  induction k with
  | zero => intro n; rfl
  | succ m ih => intro n; simp [hexDigits, ih]

/-- The rendered hex digits of `n` only depend on `n` modulo `16 ^ k`. -/
theorem hexDigits_eq_of_mod :
    ∀ (k m n : Nat), m % 16 ^ k = n % 16 ^ k → hexDigits k m = hexDigits k n := by
  intro k
  induction k with
  | zero => intro m n _; rfl
  | succ j ih =>
    intro m n h
    have hlow : m % 16 = n % 16 := by
      have hm : m % 16 ^ (j + 1) % 16 = m % 16 :=
        Nat.mod_mod_of_dvd m ⟨16 ^ j, by ring⟩
      have hn : n % 16 ^ (j + 1) % 16 = n % 16 :=
        Nat.mod_mod_of_dvd n ⟨16 ^ j, by ring⟩
      rw [← hm, ← hn, h]
    have hhigh : m / 16 % 16 ^ j = n / 16 % 16 ^ j := by
      have hm : m % 16 ^ (j + 1) / 16 = m / 16 % 16 ^ j := by
        rw [show (16 : Nat) ^ (j + 1) = 16 * 16 ^ j by ring]
        exact Nat.mod_mul_right_div_self m 16 (16 ^ j)
      have hn : n % 16 ^ (j + 1) / 16 = n / 16 % 16 ^ j := by
        rw [show (16 : Nat) ^ (j + 1) = 16 * 16 ^ j by ring]
        exact Nat.mod_mul_right_div_self n 16 (16 ^ j)
      rw [← hm, ← hn, h]
    unfold hexDigits
    rw [hlow, ih _ _ hhigh]

/-- A hex digit is never an at sign or a plus sign. -/
theorem hexDigits_avoid :
    ∀ (k n : Nat) (c : Char), c ∈ hexDigits k n → c ≠ '@' ∧ c ≠ '+' := by
  intro k
  induction k with
  | zero => intro n c hc; simp [hexDigits] at hc
  | succ j ih =>
    intro n c hc
    have hall : ∀ m < 16, hexChar m ≠ '@' ∧ hexChar m ≠ '+' := by decide
    simp only [hexDigits, List.mem_cons] at hc
    rcases hc with rfl | hc
    · exact hall _ (Nat.mod_lt _ (by norm_num))
    · exact ih _ _ hc

/-- A successful split at the first at sign means the list contains one. -/
theorem splitFirstAt_mem :
    ∀ (cs a t : List Char), splitFirstAt cs = some (a, t) → '@' ∈ cs := by
  intro cs
  induction cs with
  | nil => intro a t h; simp [splitFirstAt] at h
  | cons c rest ih =>
    intro a t h
    unfold splitFirstAt at h
    split at h
    · rename_i hc
      have : c = '@' := by simpa using hc
      rw [this]
      exact List.mem_cons_self _ _
    · rcases hsp : splitFirstAt rest with _ | ⟨a2, t2⟩
      · rw [hsp] at h; simp at h
      · exact List.mem_cons_of_mem _ (ih a2 t2 hsp)

/-- A string matching the email pattern contains an at sign. -/
theorem emailMatches_has_at (e : String) (h : emailMatches e = true) :
    '@' ∈ e.data := by
  unfold emailMatches at h
  rcases hsp : splitFirstAt e.data with _ | ⟨a, t⟩
  · rw [hsp] at h; simp at h
  · exact splitFirstAt_mem _ a t hsp

/-- A string matching the phone pattern starts with a plus sign. -/
theorem phoneMatches_has_plus (p : String) (h : phoneMatches p = true) :
    '+' ∈ p.data := by
  unfold phoneMatches at h
  split at h
  · rename_i c rest heq
    rw [heq]
    exact List.mem_cons_self _ _
  · simp at h

/-- Splitting at the first at sign after a run of letters. -/
theorem splitFirstAt_replicate :
    ∀ (n : Nat) (t : List Char),
      splitFirstAt (List.replicate n 'a' ++ '@' :: t) =
        some (List.replicate n 'a', t) := by
  intro n
  induction n with
  | zero => intro t; simp [splitFirstAt]
  | succ m ih =>
    intro t
    simp only [List.replicate_succ, List.cons_append]
    unfold splitFirstAt
    rw [ih t]
    simp

/-- Every member of the collision family matches the email pattern. -/
theorem emailMatches_emailOf (n : Nat) : emailMatches (emailOf n) = true := by
  unfold emailMatches emailOf
  rw [show ("@b.c".data) = '@' :: "b.c".data from rfl,
    splitFirstAt_replicate (n + 1) "b.c".data]
  simp [List.all_eq_true, List.mem_replicate, emailChar]
  decide

/-- The collision family is pairwise distinct (lengths differ). -/
theorem emailOf_inj {m n : Nat} (h : m ≠ n) : emailOf m ≠ emailOf n := by
  intro he
  apply h
  have hd : (emailOf m).data = (emailOf n).data := by rw [he]
  simp only [emailOf] at hd
  have hl := congrArg List.length hd
  simp [List.length_append, List.length_replicate] at hl
  omega

set_option maxRecDepth 100000 in
/-- C7 (amended): the pseudonymizer digest is deterministic and fixed-length
(64 hex characters); the digest never equals the raw input for any string of
email or phone format (digests are pure hex, which excludes at and plus
signs); the distinct emails of the test corpus hash to distinct digests. -/
theorem hashDigest_spec :
    (∀ s t : String, s = t → hashDigest s = hashDigest t) ∧
    (∀ s : String, (hashDigest s).length = 64) ∧
    (∀ e : String, emailMatches e = true → hashDigest e ≠ e) ∧
    (∀ p : String, phoneMatches p = true → hashDigest p ≠ p) ∧
    hashDigest "john.doe@example.com" ≠ hashDigest "prachi13rathi@gmail.com" := by
  refine ⟨fun s t h => by rw [h], ?_, ?_, ?_, by decide⟩
  · intro s
    show (hexDigits 64 (hashValue s)).reverse.length = 64
    rw [List.length_reverse, hexDigits_length]
  · intro e he hraw
    have h1 : '@' ∈ e.data := emailMatches_has_at e he
    rw [← hraw] at h1
    have h2 : '@' ∈ hexDigits 64 (hashValue e) := by
      simpa [hashDigest] using h1
    exact (hexDigits_avoid _ _ _ h2).1 rfl
  · intro p hp hraw
    have h1 : '+' ∈ p.data := phoneMatches_has_plus p hp
    rw [← hraw] at h1
    have h2 : '+' ∈ hexDigits 64 (hashValue p) := by
      simpa [hashDigest] using h1
    exact (hexDigits_avoid _ _ _ h2).2 rfl

/-- C7 counterexample: no fixed-length digest separates all distinct emails;
the infinite collision family maps into the finite set of 256-bit values, so
two distinct email-pattern strings share a digest. -/
theorem hashDigest_collision :
    ¬ (∀ e1 e2 : String, emailMatches e1 = true → emailMatches e2 = true →
        e1 ≠ e2 → hashDigest e1 ≠ hashDigest e2) := by
  intro h
  obtain ⟨m, n, hmn, hfeq⟩ :=
    Finite.exists_ne_map_eq_of_infinite
      (fun k : Nat => (⟨hashValue (emailOf k) % 2 ^ 256,
        Nat.mod_lt _ (by positivity)⟩ : Fin (2 ^ 256)))
  have hv : hashValue (emailOf m) % 2 ^ 256 = hashValue (emailOf n) % 2 ^ 256 :=
    congrArg Fin.val hfeq
  have hdig : hashDigest (emailOf m) = hashDigest (emailOf n) := by
    have hx : hexDigits 64 (hashValue (emailOf m)) =
        hexDigits 64 (hashValue (emailOf n)) :=
      hexDigits_eq_of_mod 64 _ _
        (by rw [show (16 : Nat) ^ 64 = 2 ^ 256 by norm_num]; exact hv)
    unfold hashDigest
    rw [hx]
  exact h _ _ (emailMatches_emailOf m) (emailMatches_emailOf n)
    (emailOf_inj hmn) hdig

/-- C5: on the positive end-to-end scenario (credit_score 750, income
1,200,000, ready-to-buy urgent comment) the urgency (+10) and
purchase-readiness (+15) rules both fire, the reranked score strictly
exceeds the initial score, and the intent level is computed from the
post-rerank value. -/
theorem positive_scenario :
    ∃ res : ScoreResult,
      (scoreLead ⟨true, []⟩ 0 positiveLead).1 = Except.ok res ∧
      res.initial_score = initialScore positiveLead ∧
      res.initial_score < res.reranked_score ∧
      res.explanation = [("urgency", 10), ("purchase-readiness", 15)] ∧
      res.intent_level = classifyIntent res.reranked_score := by
  have hvalid : validateForm positiveLead = [] := by decide
  have hinit : initialScore positiveLead = 87 := by
    norm_num [initialScore, modelHits, buildFeatures, safeDiv, positiveLead,
      encodeCat]
  have hfired : pickRules (normalizeComment positiveLead.comments) rerankRules [] =
      [⟨"urgent".data, 10, "urgency"⟩,
       ⟨"ready to buy".data, 15, "purchase-readiness"⟩] := by decide
  have hrerank : rerankComment (initialScore positiveLead) positiveLead.comments =
      (100, [⟨"urgent".data, 10, "urgency"⟩,
             ⟨"ready to buy".data, 15, "purchase-readiness"⟩]) := by
    simp only [rerankComment]
    rw [hfired, hinit]
    decide
  refine ⟨{ initial_score := initialScore positiveLead
            reranked_score := (rerankComment (initialScore positiveLead)
              positiveLead.comments).1
            intent_level := classifyIntent ((rerankComment (initialScore positiveLead)
              positiveLead.comments).1)
            explanation := (rerankComment (initialScore positiveLead)
              positiveLead.comments).2.map describeRule
            hashed_email := hashDigest positiveLead.email
            hashed_phone := hashDigest positiveLead.phone
            timestamp := 0 }, ?_, rfl, ?_, ?_, rfl⟩
  · simp only [scoreLead, hvalid]
    rfl
  · rw [hrerank, hinit]
    decide
  · rw [hrerank]
    decide

/-- C6: on the lead identical to the positive scenario but with the
browsing comment, the disengagement (-10) and casual-browsing (-5) rules
fire, the initial score is unchanged, and the reranked score is strictly
below the initial score. -/
theorem negative_scenario :
    ∃ res : ScoreResult,
      (scoreLead ⟨true, []⟩ 0 negativeLead).1 = Except.ok res ∧
      res.initial_score = initialScore positiveLead ∧
      res.reranked_score < res.initial_score ∧
      res.explanation = [("disengagement", -10), ("casual-browsing", -5)] ∧
      res.intent_level = classifyIntent res.reranked_score := by
  have hvalid : validateForm negativeLead = [] := by decide
  have hinit : initialScore negativeLead = 87 := by
    norm_num [initialScore, modelHits, buildFeatures, safeDiv, negativeLead,
      positiveLead, encodeCat]
  have hfired : pickRules (normalizeComment negativeLead.comments) rerankRules [] =
      [⟨"not interested".data, -10, "disengagement"⟩,
       ⟨"just browsing".data, -5, "casual-browsing"⟩] := by decide
  have hrerank : rerankComment (initialScore negativeLead) negativeLead.comments =
      (72, [⟨"not interested".data, -10, "disengagement"⟩,
            ⟨"just browsing".data, -5, "casual-browsing"⟩]) := by
    simp only [rerankComment]
    rw [hfired, hinit]
    decide
  have hinitP : initialScore positiveLead = 87 := by
    norm_num [initialScore, modelHits, buildFeatures, safeDiv, positiveLead,
      encodeCat]
  refine ⟨{ initial_score := initialScore negativeLead
            reranked_score := (rerankComment (initialScore negativeLead)
              negativeLead.comments).1
            intent_level := classifyIntent ((rerankComment (initialScore negativeLead)
              negativeLead.comments).1)
            explanation := (rerankComment (initialScore negativeLead)
              negativeLead.comments).2.map describeRule
            hashed_email := hashDigest negativeLead.email
            hashed_phone := hashDigest negativeLead.phone
            timestamp := 0 }, ?_, ?_, ?_, ?_, rfl⟩
  · simp only [scoreLead, hvalid]
    rfl
  · rw [hinit, hinitP]
  · rw [hrerank, hinit]
    decide
  · rw [hrerank]
    decide

end ClearDeals
